import Mathlib

/-!
Verification of the wafer-map point-generation core (`map_maker.py`).

The embedded definitions translate, over exact rational arithmetic, the
functions `is_inside_exclusion`, `is_inside_rects` and `compute_points`
from `map_maker.py`, together with the `np.arange` candidate-range
construction they rely on and the canvas-rectangle coordinate transform
used to build rectangular exclusion zones.
-/

namespace WaferMapMaker

/-- A circular exclusion zone `(centerX, centerY, radius)`. -/
abbrev CircZone : Type := ℚ × ℚ × ℚ

/-- A rectangular exclusion zone `(x, y, width, height)`. -/
abbrev RectZone : Type := ℚ × ℚ × ℚ × ℚ

/-- Number of elements of `np.arange start stop step` for a positive step:
`⌈(stop - start) / step⌉`, clamped at zero. -/
def arangeLen (start stop step : ℚ) : ℕ :=
  (Int.ceil ((stop - start) / step)).toNat

/-- `np.arange start stop step`: the values `start + i * step` for
`i = 0, 1, ...` that are strictly below `stop` (half-open range). -/
def arange (start stop step : ℚ) : List ℚ :=
  (List.range (arangeLen start stop step)).map (fun (i : ℕ) => start + (i : ℚ) * step)

/-- `is_inside_exclusion` from `map_maker.py` (lines 21-22):
`any((x-ex[0])**2 + (y-ex[1])**2 <= ex[2]**2 for ex in zones)`. -/
def is_inside_exclusion (x y : ℚ) (zones : List CircZone) : Bool :=
  zones.any (fun ex => decide ((x - ex.1) ^ 2 + (y - ex.2.1) ^ 2 ≤ ex.2.2 ^ 2))

/-- `is_inside_rects` from `map_maker.py` (lines 24-26):
`any((x >= rx and x <= rx + rw and y >= ry and y <= ry + rh) for (rx, ry, rw, rh) in rects)`. -/
def is_inside_rects (x y : ℚ) (rects : List RectZone) : Bool :=
  rects.any (fun r =>
    match r with
    | (rx, ry, rw, rh) => decide (x ≥ rx ∧ x ≤ rx + rw ∧ y ≥ ry ∧ y ≤ ry + rh))

/-- The grid pattern selector: `"Rectangular"` or `"Hexagonal"`. -/
inductive GridType : Type where
  | Rectangular : GridType
  | Hexagonal : GridType

/-- The acceptance test applied to each candidate `(x, y)` in
`compute_points` (`map_maker.py` lines 39-45 and 53-59): with
`r2 = x**2 + y**2`, require `r2 <= wafer_radius**2`,
`r2 <= (wafer_radius - edge_exclusion)**2`, not inside any circular
exclusion zone, and not inside any rectangular zone. -/
def point_condition (wafer_radius edge_exclusion : ℚ) (exclusion_zones : List CircZone)
    (drawable_rects : List RectZone) (x y : ℚ) : Bool :=
  let r2 := x ^ 2 + y ^ 2
  decide (r2 ≤ wafer_radius ^ 2) && decide (r2 ≤ (wafer_radius - edge_exclusion) ^ 2) &&
    !is_inside_exclusion x y exclusion_zones && !is_inside_rects x y drawable_rects

/-- `compute_points` from `map_maker.py` (lines 28-61), returning the list
of accepted points in generation order (outer loop over X candidates,
inner loop over Y candidates). -/
def compute_points (wafer_diameter edge_exclusion : ℚ) (grid_type : GridType)
    (spacing_x spacing_y : ℚ) (exclusion_zones : List CircZone)
    (drawable_rects : List RectZone) : List (ℚ × ℚ) :=
  let wafer_radius := wafer_diameter / 2
  match grid_type with
  | GridType.Rectangular =>
    let x_range := arange (-wafer_radius + spacing_x / 2) wafer_radius spacing_x
    let y_range := arange (-wafer_radius + spacing_y / 2) wafer_radius spacing_y
    x_range.flatMap (fun x =>
      (y_range.filter (fun y =>
        point_condition wafer_radius edge_exclusion exclusion_zones drawable_rects x y)).map
        (fun y => (x, y)))
  | GridType.Hexagonal =>
    let x_range := arange (-wafer_radius + spacing_x / 2) wafer_radius spacing_x
    x_range.enum.flatMap (fun ix =>
      let offset : ℚ := if ix.1 % 2 = 0 then 0 else spacing_y / 2
      let y_range := arange (-wafer_radius + spacing_y / 2 + offset) wafer_radius spacing_y
      (y_range.filter (fun y =>
        point_condition wafer_radius edge_exclusion exclusion_zones drawable_rects ix.2 y)).map
        (fun y => (ix.2, y)))

/-- The point count returned by `compute_points` (second component of the
Python return value, `len(points)`). -/
def num_points (wafer_diameter edge_exclusion : ℚ) (grid_type : GridType)
    (spacing_x spacing_y : ℚ) (exclusion_zones : List CircZone)
    (drawable_rects : List RectZone) : ℕ :=
  (compute_points wafer_diameter edge_exclusion grid_type spacing_x spacing_y
    exclusion_zones drawable_rects).length

/-- The fixed pixel size of the square drawing canvas (`map_maker.py` line 12). -/
def CANVAS_SIZE : ℚ := 400

/-- The canvas-rectangle to wafer-plane transform from `map_maker.py`
lines 233-238: given a drawn pixel rectangle `(left, top, width, height)`,
produce the wafer-plane zone tuple `(x, y_flipped, w, h)`. -/
def rect_from_canvas (wafer_diameter left top width height : ℚ) : RectZone :=
  let wafer_radius := wafer_diameter / 2
  let x := left * wafer_diameter / CANVAS_SIZE - wafer_radius
  let w := width * wafer_diameter / CANVAS_SIZE
  let h := height * wafer_diameter / CANVAS_SIZE
  let y_top_canvas := top * wafer_diameter / CANVAS_SIZE
  let y_flipped := wafer_diameter - y_top_canvas - h - wafer_radius
  (x, y_flipped, w, h)

/-! Basic facts about the candidate-range construction. -/

theorem lt_arangeLen_iff {start stop step : ℚ} (hstep : 0 < step) (i : ℕ) :
    i < arangeLen start stop step ↔ start + (i : ℚ) * step < stop := by
  unfold arangeLen
  rw [Int.lt_toNat, Int.lt_ceil]
  push_cast
  rw [lt_div_iff₀ hstep]
  constructor <;> intro h <;> linarith

theorem mem_arange {start stop step x : ℚ} (hstep : 0 < step) :
    x ∈ arange start stop step ↔
      ∃ i : ℕ, x = start + (i : ℚ) * step ∧ x < stop := by
  unfold arange
  rw [List.mem_map]
  constructor
  · rintro ⟨i, hi, rfl⟩
    rw [List.mem_range] at hi
    exact ⟨i, rfl, (lt_arangeLen_iff hstep i).mp hi⟩
  · rintro ⟨i, rfl, hlt⟩
    exact ⟨i, List.mem_range.mpr ((lt_arangeLen_iff hstep i).mpr hlt), rfl⟩

theorem arange_length (start stop step : ℚ) :
    (arange start stop step).length = arangeLen start stop step := by
  simp [arange]

theorem mem_enum_arange {start stop step : ℚ} {i : ℕ} {x : ℚ} :
    (i, x) ∈ (arange start stop step).enum ↔
      i < arangeLen start stop step ∧ x = start + (i : ℚ) * step := by
  rw [List.mem_iff_getElem]
  constructor
  · rintro ⟨n, hn, hget⟩
    have hn' : n < (arange start stop step).length := by
      simpa [List.enum_length] using hn
    rw [List.getElem_enum] at hget
    have hni : n = i := congrArg Prod.fst hget
    subst hni
    have hx : (arange start stop step)[n] = x := congrArg Prod.snd hget
    rw [arange_length] at hn'
    refine ⟨hn', ?_⟩
    rw [← hx]
    unfold arange
    rw [List.getElem_map, List.getElem_range]
  · rintro ⟨hi, rfl⟩
    have hi' : i < (arange start stop step).length := by rw [arange_length]; exact hi
    refine ⟨i, by simpa [List.enum_length] using hi', ?_⟩
    rw [List.getElem_enum]
    unfold arange
    rw [List.getElem_map, List.getElem_range]

/-! Membership characterizations for the two branches of `compute_points`. -/

theorem mem_compute_points_rect {d e sx sy : ℚ} {zs : List CircZone} {rs : List RectZone}
    {x y : ℚ} :
    (x, y) ∈ compute_points d e GridType.Rectangular sx sy zs rs ↔
      x ∈ arange (-(d / 2) + sx / 2) (d / 2) sx ∧
      y ∈ arange (-(d / 2) + sy / 2) (d / 2) sy ∧
      point_condition (d / 2) e zs rs x y = true := by
  unfold compute_points
  simp only [List.mem_flatMap, List.mem_map, List.mem_filter, Prod.mk.injEq]
  constructor
  · rintro ⟨a, ha, b, ⟨hb, hc⟩, rfl, rfl⟩
    exact ⟨ha, hb, hc⟩
  · rintro ⟨hx, hy, hc⟩
    exact ⟨x, hx, y, ⟨hy, hc⟩, rfl, rfl⟩

theorem mem_compute_points_hex {d e sx sy : ℚ} {zs : List CircZone} {rs : List RectZone}
    {x y : ℚ} :
    (x, y) ∈ compute_points d e GridType.Hexagonal sx sy zs rs ↔
      ∃ i : ℕ, i < arangeLen (-(d / 2) + sx / 2) (d / 2) sx ∧
        x = -(d / 2) + sx / 2 + (i : ℚ) * sx ∧
        y ∈ arange (-(d / 2) + sy / 2 + (if i % 2 = 0 then 0 else sy / 2)) (d / 2) sy ∧
        point_condition (d / 2) e zs rs x y = true := by
  unfold compute_points
  simp only [List.mem_flatMap, List.mem_map, List.mem_filter, Prod.mk.injEq, Prod.exists]
  constructor
  · rintro ⟨i, a, hmem, b, ⟨hb, hc⟩, rfl, rfl⟩
    rw [mem_enum_arange] at hmem
    obtain ⟨hi, rfl⟩ := hmem
    exact ⟨i, hi, rfl, hb, hc⟩
  · rintro ⟨i, hi, rfl, hy, hc⟩
    exact ⟨i, -(d / 2) + sx / 2 + (i : ℚ) * sx, mem_enum_arange.mpr ⟨hi, rfl⟩,
      y, ⟨hy, hc⟩, rfl, rfl⟩

/-! Monotonicity of `compute_points` in the acceptance condition: a
pointwise stronger acceptance test yields a sublist of the result. -/

theorem flatMap_sublist_flatMap {α β : Type} {l : List α} {f g : α → List β}
    (h : ∀ a ∈ l, (f a).Sublist (g a)) : (l.flatMap f).Sublist (l.flatMap g) := by
  induction l with
  | nil => simp
  | cons a l ih =>
    rw [List.flatMap_cons, List.flatMap_cons]
    exact (h a (List.mem_cons_self a l)).append
      (ih (fun b hb => h b (List.mem_cons_of_mem a hb)))

theorem compute_points_sublist_of_imp {d sx sy : ℚ} (g : GridType)
    {e1 e2 : ℚ} {zs1 zs2 : List CircZone} {rs1 rs2 : List RectZone}
    (h : ∀ x y : ℚ, point_condition (d / 2) e1 zs1 rs1 x y = true →
      point_condition (d / 2) e2 zs2 rs2 x y = true) :
    (compute_points d e1 g sx sy zs1 rs1).Sublist (compute_points d e2 g sx sy zs2 rs2) := by
  cases g with
  | Rectangular =>
    unfold compute_points
    refine flatMap_sublist_flatMap (fun x _ => ?_)
    exact (List.monotone_filter_right _ (fun yy hyy => h x yy hyy)).map _
  | Hexagonal =>
    unfold compute_points
    refine flatMap_sublist_flatMap (fun ix _ => ?_)
    exact (List.monotone_filter_right _ (fun yy hyy => h ix.2 yy hyy)).map _

theorem point_condition_eq_true {r e : ℚ} {zs : List CircZone} {rs : List RectZone}
    {x y : ℚ} :
    point_condition r e zs rs x y = true ↔
      x ^ 2 + y ^ 2 ≤ r ^ 2 ∧ x ^ 2 + y ^ 2 ≤ (r - e) ^ 2 ∧
      is_inside_exclusion x y zs = false ∧ is_inside_rects x y rs = false := by
  simp [point_condition, Bool.and_eq_true, decide_eq_true_eq, Bool.not_eq_true', and_assoc]

/-- C1: Soundness. For every valid input (diameter > 0, spacingX > 0,
spacingY > 0, edgeExclusion ≥ 0) and either grid type, every point
`(x, y)` returned by `compute_points` satisfies all four acceptance
predicates: inside the wafer, inside the edge-exclusion boundary, in no
circular exclusion zone and in no rectangular exclusion zone. -/
theorem compute_points_sound (d e sx sy : ℚ) (g : GridType)
    (zs : List CircZone) (rs : List RectZone)
    (hd : 0 < d) (hsx : 0 < sx) (hsy : 0 < sy) (he : 0 ≤ e) (x y : ℚ)
    (hmem : (x, y) ∈ compute_points d e g sx sy zs rs) :
    x ^ 2 + y ^ 2 ≤ (d / 2) ^ 2 ∧ x ^ 2 + y ^ 2 ≤ (d / 2 - e) ^ 2 ∧
    is_inside_exclusion x y zs = false ∧ is_inside_rects x y rs = false := by
  cases g with
  | Rectangular =>
    rw [mem_compute_points_rect] at hmem
    exact point_condition_eq_true.mp hmem.2.2
  | Hexagonal =>
    rw [mem_compute_points_hex] at hmem
    obtain ⟨i, _, _, _, hc⟩ := hmem
    exact point_condition_eq_true.mp hc

/-- Witness for C1 at diameter 10, spacing 5, no exclusions: the returned
point `(2.5, 2.5)` satisfies the four predicates. -/
theorem compute_points_sound_witness :
    (2.5 : ℚ) ^ 2 + (2.5 : ℚ) ^ 2 ≤ ((10 : ℚ) / 2) ^ 2 ∧
    (2.5 : ℚ) ^ 2 + (2.5 : ℚ) ^ 2 ≤ ((10 : ℚ) / 2 - 0) ^ 2 ∧
    is_inside_exclusion 2.5 2.5 [] = false ∧ is_inside_rects 2.5 2.5 [] = false :=
  compute_points_sound 10 0 5 5 GridType.Rectangular [] []
    (by norm_num) (by norm_num) (by norm_num) (by norm_num) 2.5 2.5
    (by
      rw [mem_compute_points_rect]
      refine ⟨?_, ?_, ?_⟩
      · rw [mem_arange (by norm_num : (0 : ℚ) < 5)]
        exact ⟨1, by norm_num, by norm_num⟩
      · rw [mem_arange (by norm_num : (0 : ℚ) < 5)]
        exact ⟨1, by norm_num, by norm_num⟩
      · rw [point_condition_eq_true]
        norm_num [is_inside_exclusion, is_inside_rects])

/-- C2: Completeness for the Rectangular grid. Every candidate lattice
point of the candidate-range construction (X of the form
`-radius + spacingX/2 + i·spacingX` strictly below `radius`, Y likewise
with `spacingY`) that satisfies all four acceptance predicates appears in
the result of `compute_points`. -/
theorem compute_points_complete_rect (d e sx sy : ℚ)
    (zs : List CircZone) (rs : List RectZone)
    (hd : 0 < d) (hsx : 0 < sx) (hsy : 0 < sy) (he : 0 ≤ e) (x y : ℚ)
    (hx : ∃ i : ℕ, x = -(d / 2) + sx / 2 + (i : ℚ) * sx ∧ x < d / 2)
    (hy : ∃ j : ℕ, y = -(d / 2) + sy / 2 + (j : ℚ) * sy ∧ y < d / 2)
    (h1 : x ^ 2 + y ^ 2 ≤ (d / 2) ^ 2)
    (h2 : x ^ 2 + y ^ 2 ≤ (d / 2 - e) ^ 2)
    (h3 : is_inside_exclusion x y zs = false)
    (h4 : is_inside_rects x y rs = false) :
    (x, y) ∈ compute_points d e GridType.Rectangular sx sy zs rs := by
  rw [mem_compute_points_rect]
  exact ⟨(mem_arange hsx).mpr hx, (mem_arange hsy).mpr hy,
    point_condition_eq_true.mpr ⟨h1, h2, h3, h4⟩⟩

/-- Witness for C2 at diameter 10, spacing 5, no exclusions: the candidate
`(2.5, 2.5)` satisfies the predicates and indeed appears in the result. -/
theorem compute_points_complete_rect_witness :
    ((2.5 : ℚ), (2.5 : ℚ)) ∈ compute_points 10 0 GridType.Rectangular 5 5 [] [] :=
  compute_points_complete_rect 10 0 5 5 [] []
    (by norm_num) (by norm_num) (by norm_num) (by norm_num) 2.5 2.5
    ⟨1, by norm_num, by norm_num⟩ ⟨1, by norm_num, by norm_num⟩
    (by norm_num) (by norm_num)
    (by norm_num [is_inside_exclusion]) (by norm_num [is_inside_rects])

/-- C6: Zone saturation. For every valid input whose circular-zone list
contains a zone `(0, 0, er)` with `er ≥` the wafer radius,
`compute_points` returns the empty sequence and count 0 (for either grid
type). -/
theorem compute_points_zone_saturation (d e sx sy : ℚ) (g : GridType)
    (zs : List CircZone) (rs : List RectZone) (er : ℚ)
    (hd : 0 < d) (hsx : 0 < sx) (hsy : 0 < sy) (he : 0 ≤ e)
    (hz : ((0 : ℚ), (0 : ℚ), er) ∈ zs) (her : d / 2 ≤ er) :
    compute_points d e g sx sy zs rs = [] ∧ num_points d e g sx sy zs rs = 0 := by
  have hmain : compute_points d e g sx sy zs rs = [] := by
    rw [List.eq_nil_iff_forall_not_mem]
    rintro ⟨x, y⟩ hmem
    have hprops := compute_points_sound d e sx sy g zs rs hd hsx hsy he x y hmem
    obtain ⟨h1, -, h3, -⟩ := hprops
    have hr : 0 ≤ d / 2 := by positivity
    have hin : is_inside_exclusion x y zs = true := by
      rw [is_inside_exclusion, List.any_eq_true]
      refine ⟨(0, 0, er), hz, ?_⟩
      simp only [decide_eq_true_eq]
      have : (d / 2) ^ 2 ≤ er ^ 2 := pow_le_pow_left₀ hr her 2
      have hx0 : x - 0 = x := by ring
      have hy0 : y - 0 = y := by ring
      rw [hx0, hy0]
      linarith
    rw [h3] at hin
    exact Bool.false_ne_true hin
  exact ⟨hmain, by rw [num_points, hmain]; rfl⟩

/-- Witness for C6, concrete case 2 of the spec: diameter 10, spacing 5,
no edge exclusion, one circular zone `(0, 0, 10)` of radius ≥ wafer
radius, Rectangular grid: the result is empty with count 0. -/
theorem compute_points_zone_saturation_witness :
    compute_points 10 0 GridType.Rectangular 5 5 [((0 : ℚ), (0 : ℚ), (10 : ℚ))] [] = [] ∧
    num_points 10 0 GridType.Rectangular 5 5 [((0 : ℚ), (0 : ℚ), (10 : ℚ))] [] = 0 :=
  compute_points_zone_saturation 10 0 5 5 GridType.Rectangular
    [((0 : ℚ), (0 : ℚ), (10 : ℚ))] [] 10
    (by norm_num) (by norm_num) (by norm_num) (by norm_num)
    (List.mem_singleton.mpr rfl) (by norm_num)

/-- C3 evaluation at the failing input: with diameter 10 (radius 5),
spacings 10, `edge_exclusion = 6 > radius` and no zones, the code still
returns the candidate `(0, 0)` — because `(radius - edge_exclusion)**2 =
(-1)**2 = 1 ≥ 0` — so the result is not empty and the count is not 0,
contrary to the claim that any `edge_exclusion > radius` yields zero
points. -/
theorem compute_points_edge_gt_radius_nonempty :
    ((0 : ℚ), (0 : ℚ)) ∈ compute_points 10 6 GridType.Rectangular 10 10 [] [] ∧
    num_points 10 6 GridType.Rectangular 10 10 [] [] ≠ 0 := by
  have hmem : ((0 : ℚ), (0 : ℚ)) ∈ compute_points 10 6 GridType.Rectangular 10 10 [] [] := by
    rw [mem_compute_points_rect]
    refine ⟨?_, ?_, ?_⟩
    · rw [mem_arange (by norm_num : (0 : ℚ) < 10)]
      exact ⟨0, by norm_num, by norm_num⟩
    · rw [mem_arange (by norm_num : (0 : ℚ) < 10)]
      exact ⟨0, by norm_num, by norm_num⟩
    · rw [point_condition_eq_true]
      norm_num [is_inside_exclusion, is_inside_rects]
  refine ⟨hmem, ?_⟩
  rw [num_points]
  have := List.length_pos_of_mem hmem
  omega

/-- Counterexample to C7 as stated: the zone `(0, 0, 0, 1)` has width
`0 ≤ 0`, yet the point `(0, 0)` is excluded by it, so a degenerate zone
with width ≤ 0 can still contain points. -/
theorem degenerate_zero_width_zone_excludes :
    (0 : ℚ) ≤ 0 ∧ is_inside_rects 0 0 [((0 : ℚ), (0 : ℚ), (0 : ℚ), (1 : ℚ))] = true := by
  refine ⟨le_refl 0, ?_⟩
  norm_num [is_inside_rects]

/-- C7 amended: a rectangular zone with width or height strictly negative
excludes no point; in general a zone `(rx, ry, rw, rh)` excludes exactly
the points with `rx ≤ x ≤ rx + rw` and `ry ≤ y ≤ ry + rh`, inclusive on
all four sides. -/
theorem is_inside_rects_characterization (rx ry rw rh x y : ℚ) :
    ((rw < 0 ∨ rh < 0) → is_inside_rects x y [(rx, ry, rw, rh)] = false) ∧
    (is_inside_rects x y [(rx, ry, rw, rh)] = true ↔
      rx ≤ x ∧ x ≤ rx + rw ∧ ry ≤ y ∧ y ≤ ry + rh) := by
  constructor
  · rintro (hw | hh) <;>
    · simp only [is_inside_rects, List.any_cons, List.any_nil, Bool.or_false,
        decide_eq_false_iff_not]
      rintro ⟨h1, h2, h3, h4⟩
      linarith
  · simp only [is_inside_rects, List.any_cons, List.any_nil, Bool.or_false,
      decide_eq_true_eq, ge_iff_le, and_assoc]

/-- Witness for C7 amended, at the zone `(0, 0, -1, 1)` (negative width)
and the point `(0, 0)`. -/
theorem is_inside_rects_characterization_witness :
    (((-1 : ℚ) < 0 ∨ (1 : ℚ) < 0) →
      is_inside_rects 0 0 [((0 : ℚ), (0 : ℚ), (-1 : ℚ), (1 : ℚ))] = false) ∧
    (is_inside_rects 0 0 [((0 : ℚ), (0 : ℚ), (-1 : ℚ), (1 : ℚ))] = true ↔
      (0 : ℚ) ≤ 0 ∧ (0 : ℚ) ≤ 0 + -1 ∧ (0 : ℚ) ≤ 0 ∧ (0 : ℚ) ≤ 0 + 1) :=
  is_inside_rects_characterization 0 0 (-1) 1 0 0

/-- C9: the canvas-rectangle transform follows the stated formulas
(`x = left·d/canvasSize - radius`, `w`, `h` scaled by `d/canvasSize`,
`y = d - top·d/canvasSize - h - radius`); in particular the drawn pixel
rectangle `(0, 0, 100, 100)` on the 400-pixel canvas with diameter 80
gives the zone `(-40, 20, 20, 20)`, which excludes exactly
`[-40, -20] × [20, 40]`. -/
theorem rect_from_canvas_spec :
    (∀ d left top width height : ℚ,
      rect_from_canvas d left top width height =
        (left * d / CANVAS_SIZE - d / 2,
         d - top * d / CANVAS_SIZE - height * d / CANVAS_SIZE - d / 2,
         width * d / CANVAS_SIZE,
         height * d / CANVAS_SIZE)) ∧
    rect_from_canvas 80 0 0 100 100 = (-40, 20, 20, 20) ∧
    (∀ x y : ℚ,
      is_inside_rects x y [rect_from_canvas 80 0 0 100 100] = true ↔
        -40 ≤ x ∧ x ≤ -20 ∧ 20 ≤ y ∧ y ≤ 40) := by
  have heval : rect_from_canvas 80 0 0 100 100 = (-40, 20, 20, 20) := by
    norm_num [rect_from_canvas, CANVAS_SIZE]
  refine ⟨fun d left top width height => rfl, heval, fun x y => ?_⟩
  rw [heval]
  simp only [is_inside_rects, List.any_cons, List.any_nil, Bool.or_false,
    decide_eq_true_eq, ge_iff_le]
  norm_num

theorem point_condition_cons_circ {r e x y : ℚ} {zc : CircZone}
    {zs : List CircZone} {rs : List RectZone}
    (h : point_condition r e (zc :: zs) rs x y = true) :
    point_condition r e zs rs x y = true := by
  rw [point_condition_eq_true] at h ⊢
  obtain ⟨h1, h2, h3, h4⟩ := h
  refine ⟨h1, h2, ?_, h4⟩
  simp only [is_inside_exclusion, List.any_cons, Bool.or_eq_false_iff] at h3
  simpa [is_inside_exclusion] using h3.2

theorem point_condition_cons_rect {r e x y : ℚ} {zr : RectZone}
    {zs : List CircZone} {rs : List RectZone}
    (h : point_condition r e zs (zr :: rs) x y = true) :
    point_condition r e zs rs x y = true := by
  rw [point_condition_eq_true] at h ⊢
  obtain ⟨h1, h2, h3, h4⟩ := h
  refine ⟨h1, h2, h3, ?_⟩
  simp only [is_inside_rects, List.any_cons, Bool.or_eq_false_iff] at h4
  simpa [is_inside_rects] using h4.2

/-- C10: adding one exclusion zone (circular or rectangular) to a valid
input turns the result of `compute_points` into a sublist of the result
without that zone (so no point is added and no points are reordered), and
the count never increases. -/
theorem compute_points_zone_antitone (d e sx sy : ℚ) (g : GridType)
    (zs : List CircZone) (rs : List RectZone) (zc : CircZone) (zr : RectZone)
    (hd : 0 < d) (hsx : 0 < sx) (hsy : 0 < sy) (he : 0 ≤ e) :
    ((compute_points d e g sx sy (zc :: zs) rs).Sublist
        (compute_points d e g sx sy zs rs) ∧
      num_points d e g sx sy (zc :: zs) rs ≤ num_points d e g sx sy zs rs) ∧
    ((compute_points d e g sx sy zs (zr :: rs)).Sublist
        (compute_points d e g sx sy zs rs) ∧
      num_points d e g sx sy zs (zr :: rs) ≤ num_points d e g sx sy zs rs) := by
  have hcirc : (compute_points d e g sx sy (zc :: zs) rs).Sublist
      (compute_points d e g sx sy zs rs) :=
    compute_points_sublist_of_imp g (fun x y h => point_condition_cons_circ h)
  have hrect : (compute_points d e g sx sy zs (zr :: rs)).Sublist
      (compute_points d e g sx sy zs rs) :=
    compute_points_sublist_of_imp g (fun x y h => point_condition_cons_rect h)
  exact ⟨⟨hcirc, hcirc.length_le⟩, ⟨hrect, hrect.length_le⟩⟩

/-- Witness for C10 at diameter 10, spacing 5, no edge exclusion, adding
the circular zone `(0, 0, 1)` or the rectangular zone `(0, 0, 1, 1)` to
the empty zone lists. -/
theorem compute_points_zone_antitone_witness :
    ((compute_points 10 0 GridType.Rectangular 5 5 [((0 : ℚ), (0 : ℚ), (1 : ℚ))] []).Sublist
        (compute_points 10 0 GridType.Rectangular 5 5 [] []) ∧
      num_points 10 0 GridType.Rectangular 5 5 [((0 : ℚ), (0 : ℚ), (1 : ℚ))] [] ≤
        num_points 10 0 GridType.Rectangular 5 5 [] []) ∧
    ((compute_points 10 0 GridType.Rectangular 5 5 []
        [((0 : ℚ), (0 : ℚ), (1 : ℚ), (1 : ℚ))]).Sublist
        (compute_points 10 0 GridType.Rectangular 5 5 [] []) ∧
      num_points 10 0 GridType.Rectangular 5 5 [] [((0 : ℚ), (0 : ℚ), (1 : ℚ), (1 : ℚ))] ≤
        num_points 10 0 GridType.Rectangular 5 5 [] []) :=
  compute_points_zone_antitone 10 0 5 5 GridType.Rectangular [] []
    ((0 : ℚ), (0 : ℚ), (1 : ℚ)) ((0 : ℚ), (0 : ℚ), (1 : ℚ), (1 : ℚ))
    (by norm_num) (by norm_num) (by norm_num) (by norm_num)

/-- Counterexample to C4 as stated: with diameter 10, spacing 5, no zones,
raising the edge exclusion from 6 to 11 raises the point count from 0 to a
positive number, because `(5 - 11)**2 = 36` readmits every wafer point. -/
theorem edge_exclusion_monotonicity_fails :
    (0 : ℚ) ≤ 6 ∧ (6 : ℚ) ≤ 11 ∧
    num_points 10 6 GridType.Rectangular 5 5 [] [] <
      num_points 10 11 GridType.Rectangular 5 5 [] [] := by
  refine ⟨by norm_num, by norm_num, ?_⟩
  have h6 : compute_points 10 6 GridType.Rectangular 5 5 [] [] = [] := by
    rw [List.eq_nil_iff_forall_not_mem]
    rintro ⟨x, y⟩ hmem
    rw [mem_compute_points_rect] at hmem
    obtain ⟨hx, hy, hc⟩ := hmem
    rw [mem_arange (by norm_num : (0 : ℚ) < 5)] at hx hy
    obtain ⟨i, rfl, hxlt⟩ := hx
    obtain ⟨j, rfl, hylt⟩ := hy
    rw [point_condition_eq_true] at hc
    obtain ⟨-, h2, -, -⟩ := hc
    have hi : i < 2 := by
      by_contra hge
      push_neg at hge
      have h2i : (2 : ℚ) ≤ (i : ℚ) := by exact_mod_cast hge
      norm_num at hxlt
      linarith
    have hj : j < 2 := by
      by_contra hge
      push_neg at hge
      have h2j : (2 : ℚ) ≤ (j : ℚ) := by exact_mod_cast hge
      norm_num at hylt
      linarith
    interval_cases i <;> interval_cases j <;> norm_num at h2
  have h60 : num_points 10 6 GridType.Rectangular 5 5 [] [] = 0 := by
    rw [num_points, h6]
    rfl
  have hmem11 : ((2.5 : ℚ), (2.5 : ℚ)) ∈
      compute_points 10 11 GridType.Rectangular 5 5 [] [] := by
    rw [mem_compute_points_rect]
    refine ⟨?_, ?_, ?_⟩
    · rw [mem_arange (by norm_num : (0 : ℚ) < 5)]
      exact ⟨1, by norm_num, by norm_num⟩
    · rw [mem_arange (by norm_num : (0 : ℚ) < 5)]
      exact ⟨1, by norm_num, by norm_num⟩
    · rw [point_condition_eq_true]
      norm_num [is_inside_exclusion, is_inside_rects]
  have h11pos : 0 < num_points 10 11 GridType.Rectangular 5 5 [] [] :=
    List.length_pos_of_mem hmem11
  omega

/-- C4 amended: for `0 ≤ e1 ≤ e2 ≤ radius` (all other parameters fixed,
either grid type), the point count with edge exclusion `e2` is at most the
count with `e1`. (As stated the claim fails once the edge exclusion
exceeds the radius, since `(radius - e)**2` grows again.) -/
theorem num_points_antitone_edge_exclusion (d sx sy : ℚ) (g : GridType)
    (zs : List CircZone) (rs : List RectZone) (e1 e2 : ℚ)
    (hd : 0 < d) (hsx : 0 < sx) (hsy : 0 < sy)
    (h0 : 0 ≤ e1) (h12 : e1 ≤ e2) (h2r : e2 ≤ d / 2) :
    num_points d e2 g sx sy zs rs ≤ num_points d e1 g sx sy zs rs := by
  have himp : ∀ x y : ℚ, point_condition (d / 2) e2 zs rs x y = true →
      point_condition (d / 2) e1 zs rs x y = true := by
    intro x y h
    rw [point_condition_eq_true] at h ⊢
    obtain ⟨h1, h2, h3, h4⟩ := h
    refine ⟨h1, ?_, h3, h4⟩
    have ha : 0 ≤ d / 2 - e2 := by linarith
    have hb : d / 2 - e2 ≤ d / 2 - e1 := by linarith
    have := pow_le_pow_left₀ ha hb 2
    linarith
  exact (compute_points_sublist_of_imp g himp).length_le

/-- Witness for C4 amended at diameter 10, spacing 5, edge exclusions
`e1 = 0 ≤ e2 = 1 ≤ radius`. -/
theorem num_points_antitone_edge_exclusion_witness :
    num_points 10 1 GridType.Rectangular 5 5 [] [] ≤
      num_points 10 0 GridType.Rectangular 5 5 [] [] :=
  num_points_antitone_edge_exclusion 10 5 5 GridType.Rectangular [] [] 0 1
    (by norm_num) (by norm_num) (by norm_num) (by norm_num) (by norm_num) (by norm_num)

/-- Counterexample to C5 as stated: with diameter 10, spacings 3, no zones
and no edge exclusion, the Rectangular result contains `(-3.5, -0.5)` but
not its antipode `(3.5, 0.5)`: the candidate sequence
`-3.5, -0.5, 2.5` is not symmetric about 0 because 3 does not divide 10. -/
theorem rect_symmetry_fails :
    ((-3.5 : ℚ), (-0.5 : ℚ)) ∈ compute_points 10 0 GridType.Rectangular 3 3 [] [] ∧
    ((3.5 : ℚ), (0.5 : ℚ)) ∉ compute_points 10 0 GridType.Rectangular 3 3 [] [] := by
  constructor
  · rw [mem_compute_points_rect]
    refine ⟨?_, ?_, ?_⟩
    · rw [mem_arange (by norm_num : (0 : ℚ) < 3)]
      exact ⟨0, by norm_num, by norm_num⟩
    · rw [mem_arange (by norm_num : (0 : ℚ) < 3)]
      exact ⟨1, by norm_num, by norm_num⟩
    · rw [point_condition_eq_true]
      norm_num [is_inside_exclusion, is_inside_rects]
  · intro hmem
    rw [mem_compute_points_rect] at hmem
    obtain ⟨hx, -, -⟩ := hmem
    rw [mem_arange (by norm_num : (0 : ℚ) < 3)] at hx
    obtain ⟨i, hi, -⟩ := hx
    have h3i : ((3 * i : ℕ) : ℚ) = 7 := by
      push_cast
      linarith
    have h7 : (3 * i : ℕ) = 7 := by exact_mod_cast h3i
    omega

theorem neg_mem_arange_of_mul (d s x : ℚ) (hs : 0 < s) (m : ℕ) (hm : d = (m : ℚ) * s)
    (hx : x ∈ arange (-(d / 2) + s / 2) (d / 2) s) :
    -x ∈ arange (-(d / 2) + s / 2) (d / 2) s := by
  rw [mem_arange hs] at hx ⊢
  obtain ⟨i, rfl, hlt⟩ := hx
  have him : i < m := by
    rw [hm] at hlt
    have his : (i : ℚ) * s < (m : ℚ) * s := by linarith
    by_contra hge
    push_neg at hge
    have hmi : (m : ℚ) ≤ (i : ℚ) := by exact_mod_cast hge
    have := mul_le_mul_of_nonneg_right hmi (le_of_lt hs)
    linarith
  refine ⟨m - 1 - i, ?_, ?_⟩
  · have hcast : ((m - 1 - i : ℕ) : ℚ) = (m : ℚ) - 1 - (i : ℚ) := by
      rw [Nat.cast_sub (by omega : i ≤ m - 1), Nat.cast_sub (by omega : 1 ≤ m)]
      norm_num
    rw [hcast, hm]
    ring
  · have h0 : (0 : ℚ) ≤ (i : ℚ) * s := by positivity
    linarith

/-- C5 amended: for a Rectangular grid with no exclusion zones,
`edgeExclusion = 0`, and a diameter that is an integer multiple of
`spacingX` and of `spacingY`, the result set is invariant under
`(x, y) ↦ (-x, -y)`. (As stated the claim fails whenever a spacing does
not evenly divide the diameter, since the half-open candidate range is
then not centered.) -/
theorem compute_points_rect_symm (d sx sy : ℚ)
    (hd : 0 < d) (hsx : 0 < sx) (hsy : 0 < sy)
    (hmx : ∃ m : ℕ, d = (m : ℚ) * sx) (hmy : ∃ m : ℕ, d = (m : ℚ) * sy) (x y : ℚ) :
    ((x, y) ∈ compute_points d 0 GridType.Rectangular sx sy [] [] ↔
      (-x, -y) ∈ compute_points d 0 GridType.Rectangular sx sy [] []) := by
  obtain ⟨mx, hmx⟩ := hmx
  obtain ⟨my, hmy⟩ := hmy
  have key : ∀ a b : ℚ, (a, b) ∈ compute_points d 0 GridType.Rectangular sx sy [] [] →
      (-a, -b) ∈ compute_points d 0 GridType.Rectangular sx sy [] [] := by
    intro a b h
    rw [mem_compute_points_rect] at h ⊢
    obtain ⟨ha, hb, hc⟩ := h
    refine ⟨neg_mem_arange_of_mul d sx a hsx mx hmx ha,
      neg_mem_arange_of_mul d sy b hsy my hmy hb, ?_⟩
    rw [point_condition_eq_true] at hc ⊢
    obtain ⟨h1, h2, -, -⟩ := hc
    have hsq : (-a) ^ 2 + (-b) ^ 2 = a ^ 2 + b ^ 2 := by ring
    exact ⟨by rw [hsq]; exact h1, by rw [hsq]; exact h2,
      by simp [is_inside_exclusion], by simp [is_inside_rects]⟩
  constructor
  · exact key x y
  · intro h
    have := key (-x) (-y) h
    simpa using this

/-- Witness for C5 amended at diameter 10, spacings 5 (which divide 10),
for the point `(2.5, 2.5)` and its antipode. -/
theorem compute_points_rect_symm_witness :
    (((2.5 : ℚ), (2.5 : ℚ)) ∈ compute_points 10 0 GridType.Rectangular 5 5 [] [] ↔
      ((-2.5 : ℚ), (-2.5 : ℚ)) ∈ compute_points 10 0 GridType.Rectangular 5 5 [] []) :=
  compute_points_rect_symm 10 5 5 (by norm_num) (by norm_num) (by norm_num)
    ⟨2, by norm_num⟩ ⟨2, by norm_num⟩ 2.5 2.5

/-- C8: Hexagonal column-parity offset. A point `(x, y)` is returned for
the Hexagonal grid iff `x` is the i-th X candidate (0-indexed,
`-radius + spacingX/2 + i·spacingX`, strictly below `radius`, exactly the
Rectangular X construction), `y` lies in the arithmetic Y sequence of
step `spacingY` strictly below `radius` starting at
`-radius + spacingY/2` for even `i` and at
`-radius + spacingY/2 + spacingY/2` for odd `i`, and `(x, y)` passes the
acceptance test. -/
theorem compute_points_hex_columns (d e sx sy : ℚ)
    (zs : List CircZone) (rs : List RectZone)
    (hd : 0 < d) (hsx : 0 < sx) (hsy : 0 < sy) (x y : ℚ) :
    ((x, y) ∈ compute_points d e GridType.Hexagonal sx sy zs rs ↔
      ∃ i : ℕ, (x = -(d / 2) + sx / 2 + (i : ℚ) * sx ∧ x < d / 2) ∧
        (∃ j : ℕ,
          y = -(d / 2) + sy / 2 + (if i % 2 = 0 then 0 else sy / 2) + (j : ℚ) * sy ∧
          y < d / 2) ∧
        point_condition (d / 2) e zs rs x y = true) := by
  rw [mem_compute_points_hex]
  constructor
  · rintro ⟨i, hi, rfl, hy, hc⟩
    refine ⟨i, ⟨rfl, (lt_arangeLen_iff hsx i).mp hi⟩, ?_, hc⟩
    rw [mem_arange hsy] at hy
    exact hy
  · rintro ⟨i, ⟨rfl, hxlt⟩, hy, hc⟩
    exact ⟨i, (lt_arangeLen_iff hsx i).mpr hxlt, rfl, (mem_arange hsy).mpr hy, hc⟩

/-- Witness for C8 at diameter 10, spacingX 5, spacingY 4, no exclusions,
at the point `(2.5, -1)` (which sits in the odd column `i = 1`, whose Y
sequence starts at `-5 + 2 + 2 = -1`). -/
theorem compute_points_hex_columns_witness :
    (((2.5 : ℚ), (-1 : ℚ)) ∈ compute_points 10 0 GridType.Hexagonal 5 4 [] [] ↔
      ∃ i : ℕ, ((2.5 : ℚ) = -((10 : ℚ) / 2) + 5 / 2 + (i : ℚ) * 5 ∧ (2.5 : ℚ) < 10 / 2) ∧
        (∃ j : ℕ,
          (-1 : ℚ) = -((10 : ℚ) / 2) + 4 / 2 + (if i % 2 = 0 then 0 else 4 / 2) +
            (j : ℚ) * 4 ∧
          (-1 : ℚ) < 10 / 2) ∧
        point_condition ((10 : ℚ) / 2) 0 [] [] 2.5 (-1) = true) :=
  compute_points_hex_columns 10 0 5 4 [] [] (by norm_num) (by norm_num) (by norm_num)
    2.5 (-1)

end WaferMapMaker
